import Mathlib

/-!
Verification development for the snake-game engine in
`src/components/SnakeGame.tsx`.

The TypeScript component is a React UI around a small deterministic
simulation.  The shallow embedding below translates the engine:

* `Cell`, the grid constants, `createInitialSnake`, `getRandomFood`,
  `cellsEqual` are direct translations of the top-level definitions.
* `step` embeds the `step` callback (the `setSnake` functional update
  together with the `setFood`/`setScore`/`setHighScore`/`setSpeed` calls it
  performs, and `handleGameOver`).
* `tickUI` embeds the interval callback (lines 189-200) together with the
  effect that arms the interval only while `isRunning && !isGameOver`.
* `handleKeyDown`, `handleButtonDir`, `handleStart`, `handlePause`,
  `handleResume`, `handleRestart`, `resetGame` embed the input handlers.
* JavaScript `Math.random()`-based food selection is embedded by an
  explicit index parameter `rand : Nat`: `Math.floor(Math.random() * n)`
  is an arbitrary index in `[0, n)`, embedded as `rand % n`.
* `jsParseInt` embeds `Number.parseInt(s, 10)` (skip leading whitespace,
  optional sign, longest digit prefix, `NaN` when no digit), returning
  `none` for `NaN`.
* The mutable refs `directionRef` / `nextDirectionRef` are embedded as the
  `direction` field of `GameState` and the `pending` field of `UIState`;
  the source keeps `directionRef` synchronized with the `direction` state
  via a dedicated effect, so a single field represents both.
* The string-keyed occupancy set `` `${x}:${y}` `` of `getRandomFood` is an
  exact membership test on cells (the key is injective on integer pairs),
  embedded as decidable list membership.
-/

/-- Grid side length, `GRID_SIZE = 25` in the source. -/
def GRID_SIZE : Int := 25

/-- Initial tick interval, `INITIAL_SPEED = 150`. -/
def INITIAL_SPEED : Int := 150

/-- Minimum tick interval, `SPEED_FLOOR = 60`. -/
def SPEED_FLOOR : Int := 60

/-- Speed decrement per food eaten, `SPEED_STEP = 4`. -/
def SPEED_STEP : Int := 4

/-- A grid cell, `type Cell = { x: number; y: number }`.  Coordinates are
integers; the candidate next head can leave the grid, so they live in `Int`. -/
structure Cell where
  x : Int
  y : Int
deriving DecidableEq

/-- `cellsEqual` from the source: `a.x === b.x && a.y === b.y`. -/
def cellsEqual (a b : Cell) : Bool :=
  a.x == b.x && a.y == b.y

/-- `createInitialSnake`: three cells on the center row, head (index 0) at
`center + 1`, where `center = Math.floor(GRID_SIZE / 2)`. -/
def createInitialSnake : List Cell :=
  let center := GRID_SIZE / 2
  [⟨center + 1, center⟩, ⟨center, center⟩, ⟨center - 1, center⟩]

/-- The `spaces` array built by `getRandomFood`: all grid cells not occupied,
pushed by the nested loops `for y ... for x ...` (y outer, x inner). -/
def freeSpaces (occupied : List Cell) : List Cell :=
  (List.range GRID_SIZE.toNat).flatMap fun (y : Nat) =>
    (List.range GRID_SIZE.toNat).filterMap fun (x : Nat) =>
      if (⟨(x : Int), (y : Int)⟩ : Cell) ∈ occupied then none
      else some ⟨(x : Int), (y : Int)⟩

/-- `getRandomFood`: return `{x: 0, y: 0}` when no free cell exists, otherwise
`spaces[Math.floor(Math.random() * spaces.length)]`; the random draw is
embedded by the index `rand % spaces.length`. -/
def getRandomFood (rand : Nat) (occupied : List Cell) : Cell :=
  let spaces := freeSpaces occupied
  if spaces.isEmpty then ⟨0, 0⟩
  else spaces.getD (rand % spaces.length) ⟨0, 0⟩

/-- The engine state held in the component's `useState` hooks. -/
structure GameState where
  snake : List Cell
  direction : Cell
  food : Cell
  score : Int
  highScore : Int
  speed : Int
  isRunning : Bool
  isGameOver : Bool
deriving DecidableEq

/-- The `step` callback: compute `nextHead` from the head and
`currentDirection`, check wall and self collision against the pre-move body,
and either signal game over (leaving the body unchanged) or advance, growing
on food (with score / high-score / speed updates and a fresh food draw) and
dropping the tail otherwise. -/
def step (rand : Nat) (currentDirection : Cell) (g : GameState) : GameState :=
  match g.snake with
  | [] => g
  | head :: _ =>
    let nextHead : Cell := ⟨head.x + currentDirection.x, head.y + currentDirection.y⟩
    let hitsWall : Bool :=
      decide (nextHead.x < 0) || decide (nextHead.y < 0) ||
      decide (nextHead.x ≥ GRID_SIZE) || decide (nextHead.y ≥ GRID_SIZE)
    let hitsSelf : Bool := g.snake.any fun segment => cellsEqual segment nextHead
    if hitsWall || hitsSelf then
      { g with isRunning := false, isGameOver := true }
    else
      let nextSnake := nextHead :: g.snake
      let ateFood := cellsEqual nextHead g.food
      if ateFood then
        let updatedScore := g.score + 10
        { g with
            snake := nextSnake
            food := getRandomFood rand nextSnake
            score := updatedScore
            highScore := if updatedScore > g.highScore then updatedScore else g.highScore
            speed := max SPEED_FLOOR (g.speed - SPEED_STEP) }
      else
        { g with snake := nextSnake.dropLast }

/-- Numeric value of a digit string, most significant first. -/
def digitsVal (l : List Char) : Nat :=
  l.foldl (fun n c => 10 * n + (c.toNat - 48)) 0

/-- Embedding of JavaScript `Number.parseInt(s, 10)`: skip leading
whitespace, consume an optional sign, then the longest prefix of decimal
digits; the result is `NaN` (here `none`) when that prefix is empty, and
otherwise the signed value of the digits, ignoring any trailing characters. -/
def jsParseInt (s : String) : Option Int :=
  let cs := s.data.dropWhile fun c => c == ' ' || c == '\t' || c == '\n' || c == '\r'
  let sign : Int := if cs.head? == some '-' then -1 else 1
  let rest := if cs.head? == some '-' || cs.head? == some '+' then cs.tail else cs
  let digits := rest.takeWhile Char.isDigit
  if digits.isEmpty then none else some (sign * digitsVal digits)

/-- The high score loaded by the initialization effect: `highScore` starts at
`0`; when `localStorage.getItem("snake-highscore")` is truthy (present and
non-empty) and `Number.parseInt(stored, 10)` is not `NaN`, the parsed value is
stored. -/
def loadHighScore (stored : Option String) : Int :=
  match stored with
  | none => 0
  | some s =>
    if s = "" then 0
    else
      match jsParseInt s with
      | none => 0
      | some n => n

/-- The key-to-direction lookup table `KEY_TO_DIRECTION`. -/
def KEY_TO_DIRECTION (k : String) : Option Cell :=
  if k = "ArrowUp" then some ⟨0, -1⟩
  else if k = "ArrowDown" then some ⟨0, 1⟩
  else if k = "ArrowLeft" then some ⟨-1, 0⟩
  else if k = "ArrowRight" then some ⟨1, 0⟩
  else if k = "w" then some ⟨0, -1⟩
  else if k = "s" then some ⟨0, 1⟩
  else if k = "a" then some ⟨-1, 0⟩
  else if k = "d" then some ⟨1, 0⟩
  else none

/-- Component state visible to the handlers: the engine state plus the
`nextDirectionRef` buffer holding at most one pending direction. -/
structure UIState where
  game : GameState
  pending : Option Cell
deriving DecidableEq

/-- `resetGame(autoStart)`: fresh snake, fresh food over the fresh snake,
direction `(1,0)`, cleared pending buffer, score `0`, speed `INITIAL_SPEED`,
game-over cleared, running set to `autoStart`.  The high score is not touched. -/
def resetGame (rand : Nat) (autoStart : Bool) (u : UIState) : UIState :=
  let freshSnake := createInitialSnake
  { pending := none
    game :=
      { snake := freshSnake
        direction := ⟨1, 0⟩
        food := getRandomFood rand freshSnake
        score := 0
        highScore := u.game.highScore
        speed := INITIAL_SPEED
        isRunning := autoStart
        isGameOver := false } }

/-- Component state right after mount and the two initialization effects:
initial snake and food from `useMemo`, direction `(1,0)`, not running, not
game over, score `0`, speed `INITIAL_SPEED`, high score loaded from the
persisted string. -/
def initUI (stored : Option String) (rand : Nat) : UIState :=
  let snake := createInitialSnake
  { pending := none
    game :=
      { snake := snake
        direction := ⟨1, 0⟩
        food := getRandomFood rand snake
        score := 0
        highScore := loadHighScore stored
        speed := INITIAL_SPEED
        isRunning := false
        isGameOver := false } }

/-- The interval callback (consume the pending direction, then `step`),
guarded by the effect that arms the interval only while
`isRunning && !isGameOver`. -/
def tickUI (rand : Nat) (u : UIState) : UIState :=
  if u.game.isRunning && !u.game.isGameOver then
    match u.pending with
    | some d => { pending := none, game := step rand d { u.game with direction := d } }
    | none => { pending := none, game := step rand u.game.direction u.game }
  else u

/-- Embedding of `key.toLowerCase()` for the single-character keys the
handler normalizes, applied character by character (`String.map` does not
reduce in the kernel, so the list-level map is used). -/
def lowerString (s : String) : String := ⟨s.data.map Char.toLower⟩

/-- `handleKeyDown`: lowercase single-character keys; space toggles
running or restarts on game over; a direction key is dropped when it is the
exact opposite of the current direction and otherwise overwrites the pending
buffer, starting the run when neither running nor game over. -/
def handleKeyDown (k : String) (rand : Nat) (u : UIState) : UIState :=
  let key := if k.length = 1 then lowerString k else k
  if key = " " then
    if u.game.isGameOver then resetGame rand true u
    else { u with game.isRunning := !u.game.isRunning }
  else
    match KEY_TO_DIRECTION key with
    | none => u
    | some desiredDirection =>
      if u.game.direction.x + desiredDirection.x = 0 ∧
         u.game.direction.y + desiredDirection.y = 0 then u
      else
        let u1 : UIState := { u with pending := some desiredDirection }
        if !u1.game.isRunning && !u1.game.isGameOver then
          { u1 with game.isRunning := true }
        else u1

/-- One of the four on-screen directional buttons; its `onClick` handler
passes the corresponding `KEY_TO_DIRECTION` entry. -/
inductive BtnDir where
  | up
  | down
  | left
  | right
deriving DecidableEq

/-- The direction vector a button passes: `KEY_TO_DIRECTION.ArrowUp` etc. -/
def btnCell : BtnDir → Cell
  | .up => ⟨0, -1⟩
  | .down => ⟨0, 1⟩
  | .left => ⟨-1, 0⟩
  | .right => ⟨1, 0⟩

/-- The on-screen button `onClick` handlers: unless the desired direction is
the exact opposite of the current one, write the pending buffer and set the
running flag when it is unset (with no game-over guard). -/
def handleButtonDir (desired : Cell) (u : UIState) : UIState :=
  if u.game.direction.x + desired.x ≠ 0 ∨ u.game.direction.y + desired.y ≠ 0 then
    let u1 : UIState := { u with pending := some desired }
    if !u1.game.isRunning then { u1 with game.isRunning := true } else u1
  else u

/-- `handleStart`: restart when game over, otherwise set running. -/
def handleStart (rand : Nat) (u : UIState) : UIState :=
  if u.game.isGameOver then resetGame rand true u
  else { u with game.isRunning := true }

/-- `handlePause`: clear the running flag. -/
def handlePause (u : UIState) : UIState :=
  { u with game.isRunning := false }

/-- `handleResume`: set the running flag unless game over. -/
def handleResume (u : UIState) : UIState :=
  if !u.game.isGameOver then { u with game.isRunning := true } else u

/-- `handleRestart`: `resetGame(true)`. -/
def handleRestart (rand : Nat) (u : UIState) : UIState :=
  resetGame rand true u

/-- The discrete events that can hit the component: a timer firing, a key
press, an on-screen button press.  Events that may spawn food carry the
random index for `getRandomFood`. -/
inductive Event where
  | timerFire (rand : Nat)
  | key (k : String) (rand : Nat)
  | buttonDir (b : BtnDir)
  | startBtn (rand : Nat)
  | pauseBtn
  | resumeBtn
  | restartBtn (rand : Nat)
deriving DecidableEq

/-- Dispatch one event to its handler. -/
def applyEvent : Event → UIState → UIState
  | .timerFire rand, u => tickUI rand u
  | .key k rand, u => handleKeyDown k rand u
  | .buttonDir b, u => handleButtonDir (btnCell b) u
  | .startBtn rand, u => handleStart rand u
  | .pauseBtn, u => handlePause u
  | .resumeBtn, u => handleResume u
  | .restartBtn rand, u => handleRestart rand u

/-- States reachable from a fresh mount by any event sequence. -/
inductive Reachable : UIState → Prop where
  | init (stored : Option String) (rand : Nat) : Reachable (initUI stored rand)
  | next (e : Event) {u : UIState} : Reachable u → Reachable (applyEvent e u)

/-- A sequence of timer firings, one random index per firing. -/
def applyTicks (rands : List Nat) (u : UIState) : UIState :=
  rands.foldl (fun s r => tickUI r s) u

theorem cellsEqual_iff {a b : Cell} : cellsEqual a b = true ↔ a = b := by
  cases a; cases b
  simp [cellsEqual, Cell.mk.injEq]

theorem any_cellsEqual {l : List Cell} {c : Cell} :
    (l.any fun segment => cellsEqual segment c) = true ↔ c ∈ l := by
  simp [List.any_eq_true, cellsEqual_iff]

/-- Unfolding `step` on a collision: the game-over branch. -/
theorem step_of_collision (rand : Nat) (d : Cell) (g : GameState) {head : Cell}
    {rest : List Cell} (hsnake : g.snake = head :: rest)
    (hcol : head.x + d.x < 0 ∨ head.y + d.y < 0 ∨ GRID_SIZE ≤ head.x + d.x ∨
      GRID_SIZE ≤ head.y + d.y ∨ (⟨head.x + d.x, head.y + d.y⟩ : Cell) ∈ g.snake) :
    step rand d g = { g with isRunning := false, isGameOver := true } := by
  obtain ⟨snake, dir, food, score, hs, speed, run, over⟩ := g
  simp only at hsnake
  subst hsnake
  simp only [step]
  rw [if_pos]
  simp only [Bool.or_eq_true, decide_eq_true_iff, any_cellsEqual]
  simp only at hcol
  tauto

/-- Unfolding `step` when the move is safe and lands on food: grow. -/
theorem step_of_eat (rand : Nat) (d : Cell) (g : GameState) {head : Cell}
    {rest : List Cell} (hsnake : g.snake = head :: rest)
    (hwx0 : 0 ≤ head.x + d.x) (hwy0 : 0 ≤ head.y + d.y)
    (hwx1 : head.x + d.x < GRID_SIZE) (hwy1 : head.y + d.y < GRID_SIZE)
    (hself : (⟨head.x + d.x, head.y + d.y⟩ : Cell) ∉ g.snake)
    (hfood : g.food = ⟨head.x + d.x, head.y + d.y⟩) :
    step rand d g =
      { g with
          snake := (⟨head.x + d.x, head.y + d.y⟩ : Cell) :: g.snake
          food := getRandomFood rand ((⟨head.x + d.x, head.y + d.y⟩ : Cell) :: g.snake)
          score := g.score + 10
          highScore := if g.score + 10 > g.highScore then g.score + 10 else g.highScore
          speed := max SPEED_FLOOR (g.speed - SPEED_STEP) } := by
  obtain ⟨snake, dir, food, score, hs, speed, run, over⟩ := g
  simp only at hsnake hself hfood
  subst hsnake
  subst hfood
  simp only [step]
  rw [if_neg, if_pos]
  · exact cellsEqual_iff.mpr rfl
  · simp only [Bool.or_eq_true, decide_eq_true_iff, any_cellsEqual]
    push_neg
    exact ⟨by omega, hself⟩

/-- Unfolding `step` when the move is safe and misses the food: advance and
drop the tail. -/
theorem step_of_move (rand : Nat) (d : Cell) (g : GameState) {head : Cell}
    {rest : List Cell} (hsnake : g.snake = head :: rest)
    (hwx0 : 0 ≤ head.x + d.x) (hwy0 : 0 ≤ head.y + d.y)
    (hwx1 : head.x + d.x < GRID_SIZE) (hwy1 : head.y + d.y < GRID_SIZE)
    (hself : (⟨head.x + d.x, head.y + d.y⟩ : Cell) ∉ g.snake)
    (hfood : g.food ≠ ⟨head.x + d.x, head.y + d.y⟩) :
    step rand d g =
      { g with
          snake := ((⟨head.x + d.x, head.y + d.y⟩ : Cell) :: g.snake).dropLast } := by
  obtain ⟨snake, dir, food, score, hs, speed, run, over⟩ := g
  simp only at hsnake hself hfood
  subst hsnake
  simp only [step]
  rw [if_neg, if_neg]
  · intro h
    exact hfood (cellsEqual_iff.mp h).symm
  · simp only [Bool.or_eq_true, decide_eq_true_iff, any_cellsEqual]
    push_neg
    exact ⟨by omega, hself⟩

/-- Claim C1: for a snake of length at least 2, on a tick whose candidate
next head equals the current tail cell (the last element of the pre-move
body) and on which the snake does not eat, the run ends in game over with the
body unchanged: the self-collision check runs against the entire pre-move
body, tail included, even though absent food the tail would vacate that cell
on the same tick. -/
theorem selfCollision_tail_inclusive (rand : Nat) (d : Cell) (g : GameState)
    {head : Cell} {rest : List Cell} (hsnake : g.snake = head :: rest)
    (hlen : 2 ≤ g.snake.length)
    (htail : g.snake.getLast? = some ⟨head.x + d.x, head.y + d.y⟩)
    (hnoeat : g.food ≠ ⟨head.x + d.x, head.y + d.y⟩) :
    (step rand d g).isGameOver = true ∧ (step rand d g).isRunning = false ∧
      (step rand d g).snake = g.snake := by
  have hmem : (⟨head.x + d.x, head.y + d.y⟩ : Cell) ∈ g.snake :=
    List.mem_of_mem_getLast? htail
  rw [step_of_collision rand d g hsnake (Or.inr (Or.inr (Or.inr (Or.inr hmem))))]
  simp

/-- A running mid-game state whose snake is coiled so that the head's next
move can land on the tail cell. -/
def tailChaseState : GameState :=
  { snake := [⟨5, 5⟩, ⟨5, 6⟩, ⟨6, 6⟩, ⟨6, 5⟩]
    direction := ⟨0, -1⟩
    food := ⟨10, 10⟩
    score := 10
    highScore := 30
    speed := 146
    isRunning := true
    isGameOver := false }

theorem selfCollision_tail_inclusive_witness :
    (step 0 ⟨1, 0⟩ tailChaseState).isGameOver = true ∧
      (step 0 ⟨1, 0⟩ tailChaseState).isRunning = false ∧
      (step 0 ⟨1, 0⟩ tailChaseState).snake = tailChaseState.snake :=
  selfCollision_tail_inclusive 0 ⟨1, 0⟩ tailChaseState rfl (by decide) (by decide)
    (by decide)

/-- Claim C3: a candidate next head outside the grid (x or y negative, or at
least `GRID_SIZE`) or lying on any cell of the pre-move body sends the run to
game over, and the tick leaves snake, food, score, speed, high score and
direction all unchanged. -/
theorem collision_mutates_nothing (rand : Nat) (d : Cell) (g : GameState)
    {head : Cell} {rest : List Cell} (hsnake : g.snake = head :: rest)
    (hcol : head.x + d.x < 0 ∨ head.y + d.y < 0 ∨ GRID_SIZE ≤ head.x + d.x ∨
      GRID_SIZE ≤ head.y + d.y ∨ (⟨head.x + d.x, head.y + d.y⟩ : Cell) ∈ g.snake) :
    (step rand d g).isGameOver = true ∧ (step rand d g).isRunning = false ∧
      (step rand d g).snake = g.snake ∧ (step rand d g).food = g.food ∧
      (step rand d g).score = g.score ∧ (step rand d g).speed = g.speed ∧
      (step rand d g).highScore = g.highScore ∧
      (step rand d g).direction = g.direction := by
  rw [step_of_collision rand d g hsnake hcol]
  simp

/-- A running state with the head on the left wall. -/
def wallState : GameState :=
  { snake := [⟨0, 5⟩, ⟨1, 5⟩]
    direction := ⟨-1, 0⟩
    food := ⟨10, 10⟩
    score := 20
    highScore := 50
    speed := 142
    isRunning := true
    isGameOver := false }

theorem collision_mutates_nothing_witness :
    (step 0 ⟨-1, 0⟩ wallState).isGameOver = true ∧
      (step 0 ⟨-1, 0⟩ wallState).isRunning = false ∧
      (step 0 ⟨-1, 0⟩ wallState).snake = wallState.snake ∧
      (step 0 ⟨-1, 0⟩ wallState).food = wallState.food ∧
      (step 0 ⟨-1, 0⟩ wallState).score = wallState.score ∧
      (step 0 ⟨-1, 0⟩ wallState).speed = wallState.speed ∧
      (step 0 ⟨-1, 0⟩ wallState).highScore = wallState.highScore ∧
      (step 0 ⟨-1, 0⟩ wallState).direction = wallState.direction :=
  collision_mutates_nothing 0 ⟨-1, 0⟩ wallState rfl (Or.inl (by decide))

/-- Modelled from the spec (section 4.1): the grid cells in row-major scan
order, y outer, x inner, for comparison with the enumeration `getRandomFood`
actually builds. -/
def rowMajorCells : List Cell :=
  (List.range GRID_SIZE.toNat).flatMap fun (y : Nat) =>
    (List.range GRID_SIZE.toNat).map fun (x : Nat) => ⟨(x : Int), (y : Int)⟩

theorem filterMap_occupied_eq_filter (y : Nat) (occ : List Cell) (l : List Nat) :
    (l.filterMap fun (x : Nat) =>
        if (⟨(x : Int), (y : Int)⟩ : Cell) ∈ occ then none
        else some ⟨(x : Int), (y : Int)⟩) =
      (l.map fun (x : Nat) => (⟨(x : Int), (y : Int)⟩ : Cell)).filter fun c =>
        decide (c ∉ occ) := by
  induction l with
  | nil => rfl
  | cons a t ih =>
    by_cases h : (⟨(a : Int), (y : Int)⟩ : Cell) ∈ occ <;>
      simp [List.filterMap_cons, List.filter_cons, h, ih]

/-- The enumeration `getRandomFood` builds is exactly the row-major grid scan
restricted to unoccupied cells. -/
theorem freeSpaces_eq_filter (occ : List Cell) :
    freeSpaces occ = rowMajorCells.filter fun c => decide (c ∉ occ) := by
  unfold freeSpaces rowMajorCells
  rw [List.filter_flatMap]
  exact List.flatMap_congr fun y _ => filterMap_occupied_eq_filter y occ _

theorem mem_rowMajorCells {c : Cell} :
    c ∈ rowMajorCells ↔
      0 ≤ c.x ∧ c.x < GRID_SIZE ∧ 0 ≤ c.y ∧ c.y < GRID_SIZE := by
  have hG : GRID_SIZE = 25 := rfl
  have hGn : GRID_SIZE.toNat = 25 := rfl
  simp only [rowMajorCells, List.mem_flatMap, List.mem_map, List.mem_range, hG, hGn]
  constructor
  · rintro ⟨y, hy, x, hx, rfl⟩
    simp only []
    refine ⟨by positivity, by omega, by positivity, by omega⟩
  · rintro ⟨h1, h2, h3, h4⟩
    refine ⟨c.y.toNat, by omega, c.x.toNat, by omega, ?_⟩
    cases c with
    | mk cx cy =>
      simp only [Cell.mk.injEq]
      constructor <;> simp only at h1 h2 h3 h4 <;> omega

theorem mem_freeSpaces {c : Cell} {occ : List Cell} :
    c ∈ freeSpaces occ ↔
      (0 ≤ c.x ∧ c.x < GRID_SIZE ∧ 0 ≤ c.y ∧ c.y < GRID_SIZE) ∧ c ∉ occ := by
  rw [freeSpaces_eq_filter, List.mem_filter, mem_rowMajorCells]
  simp

theorem getRandomFood_mem {occ : List Cell} (rand : Nat)
    (h : freeSpaces occ ≠ []) : getRandomFood rand occ ∈ freeSpaces occ := by
  unfold getRandomFood
  simp only
  rw [if_neg (by simp [List.isEmpty_eq_false.mpr h])]
  have hl : 0 < (freeSpaces occ).length := List.length_pos.mpr h
  rw [List.getD_eq_getElem _ _ (Nat.mod_lt _ hl)]
  exact List.getElem_mem _

theorem getRandomFood_empty {occ : List Cell} (rand : Nat)
    (h : freeSpaces occ = []) : getRandomFood rand occ = ⟨0, 0⟩ := by
  unfold getRandomFood
  simp [h]

/-- Claim C8: food spawning enumerates exactly the grid cells not in the
occupied set, in row-major order (y outer, x inner); when that enumeration is
non-empty the spawned cell is a member of it (hence free and in bounds), and
when it is empty the fixed fallback cell `(0,0)` is returned. -/
theorem food_spawning_rowMajor (occ : List Cell) (rand : Nat) :
    freeSpaces occ = rowMajorCells.filter (fun c => decide (c ∉ occ)) ∧
      (freeSpaces occ ≠ [] →
        getRandomFood rand occ ∈ freeSpaces occ ∧
        getRandomFood rand occ ∉ occ ∧
        0 ≤ (getRandomFood rand occ).x ∧ (getRandomFood rand occ).x < GRID_SIZE ∧
        0 ≤ (getRandomFood rand occ).y ∧ (getRandomFood rand occ).y < GRID_SIZE) ∧
      (freeSpaces occ = [] → getRandomFood rand occ = ⟨0, 0⟩) := by
  refine ⟨freeSpaces_eq_filter occ, fun h => ?_, getRandomFood_empty rand⟩
  have hmem := getRandomFood_mem rand h
  have hc := mem_freeSpaces.mp hmem
  exact ⟨hmem, hc.2, hc.1.1, hc.1.2.1, hc.1.2.2.1, hc.1.2.2.2⟩

theorem food_spawning_rowMajor_witness :
    getRandomFood 7 [] ∈ freeSpaces [] ∧
      getRandomFood 7 rowMajorCells = ⟨0, 0⟩ := by
  have hne : freeSpaces ([] : List Cell) ≠ [] :=
    List.ne_nil_of_mem ((mem_freeSpaces (c := ⟨0, 0⟩)).mpr ⟨by decide, by simp⟩)
  have hfull : freeSpaces rowMajorCells = [] := by
    rw [List.eq_nil_iff_forall_not_mem]
    intro c hc
    have h2 := mem_freeSpaces.mp hc
    exact h2.2 (mem_rowMajorCells.mpr h2.1)
  exact ⟨((food_spawning_rowMajor [] 7).2.1 hne).1,
    (food_spawning_rowMajor rowMajorCells 7).2.2 hfull⟩

/-- Claim C2: on a tick where the candidate next head equals the food and no
collision occurs, the score rises by exactly 10, the snake grows by exactly
one cell (the new head is prepended and no tail is dropped), the speed drops
by `SPEED_STEP = 4` clamped at `SPEED_FLOOR = 60`, the high score becomes the
maximum of its previous value and the new score, and the new food cell is
disjoint from the post-move body unless the board is fully occupied, in which
case it is the fallback `(0,0)`. -/
theorem food_consumption (rand : Nat) (d : Cell) (g : GameState)
    {head : Cell} {rest : List Cell} (hsnake : g.snake = head :: rest)
    (hwx0 : 0 ≤ head.x + d.x) (hwy0 : 0 ≤ head.y + d.y)
    (hwx1 : head.x + d.x < GRID_SIZE) (hwy1 : head.y + d.y < GRID_SIZE)
    (hself : (⟨head.x + d.x, head.y + d.y⟩ : Cell) ∉ g.snake)
    (hfood : g.food = ⟨head.x + d.x, head.y + d.y⟩) :
    (step rand d g).score = g.score + 10 ∧
      (step rand d g).snake = (⟨head.x + d.x, head.y + d.y⟩ : Cell) :: g.snake ∧
      (step rand d g).snake.length = g.snake.length + 1 ∧
      (step rand d g).speed = max SPEED_FLOOR (g.speed - SPEED_STEP) ∧
      (step rand d g).highScore = max g.highScore (g.score + 10) ∧
      (step rand d g).isGameOver = g.isGameOver ∧
      (freeSpaces ((⟨head.x + d.x, head.y + d.y⟩ : Cell) :: g.snake) ≠ [] →
        (step rand d g).food ∉ (step rand d g).snake) ∧
      (freeSpaces ((⟨head.x + d.x, head.y + d.y⟩ : Cell) :: g.snake) = [] →
        (step rand d g).food = ⟨0, 0⟩) := by
  rw [step_of_eat rand d g hsnake hwx0 hwy0 hwx1 hwy1 hself hfood]
  refine ⟨rfl, rfl, rfl, rfl, ?_, rfl, ?_, ?_⟩
  · show (if g.score + 10 > g.highScore then g.score + 10 else g.highScore) = _
    split <;> omega
  · intro h
    have hmem := getRandomFood_mem rand h
    exact (mem_freeSpaces.mp hmem).2
  · intro h
    exact getRandomFood_empty rand h

/-- A running state one move away from the food. -/
def eatState : GameState :=
  { snake := [⟨5, 5⟩]
    direction := ⟨1, 0⟩
    food := ⟨6, 5⟩
    score := 30
    highScore := 20
    speed := 150
    isRunning := true
    isGameOver := false }

theorem food_consumption_witness :
    (step 3 ⟨1, 0⟩ eatState).score = eatState.score + 10 ∧
      (step 3 ⟨1, 0⟩ eatState).snake.length = eatState.snake.length + 1 ∧
      (step 3 ⟨1, 0⟩ eatState).speed = max SPEED_FLOOR (eatState.speed - SPEED_STEP) ∧
      (step 3 ⟨1, 0⟩ eatState).highScore = max eatState.highScore (eatState.score + 10) ∧
      (step 3 ⟨1, 0⟩ eatState).food ∉ (step 3 ⟨1, 0⟩ eatState).snake := by
  have h := food_consumption 3 ⟨1, 0⟩ eatState rfl (by decide) (by decide) (by decide)
    (by decide) (by decide) (by decide)
  have key := h.2.2.2.2.2.2.1
    (List.ne_nil_of_mem ((mem_freeSpaces (c := ⟨0, 0⟩)).mpr ⟨by decide, by decide⟩))
  exact ⟨h.1, h.2.2.1, h.2.2.2.1, h.2.2.2.2.1, key⟩

/-- Claim C5: restarting from any state recreates the initial configuration —
the three-cell snake on the grid's center row with the head at the rightmost
cell, direction `(1,0)`, an empty pending-direction buffer, score 0, speed
`INITIAL_SPEED = 150`, and a freshly spawned food cell off the fresh snake —
and transitions directly to running. -/
theorem restart_reinitializes (rand : Nat) (u : UIState) :
    (handleRestart rand u).game.snake = [⟨13, 12⟩, ⟨12, 12⟩, ⟨11, 12⟩] ∧
      (handleRestart rand u).game.snake = createInitialSnake ∧
      (handleRestart rand u).game.direction = ⟨1, 0⟩ ∧
      (handleRestart rand u).pending = none ∧
      (handleRestart rand u).game.score = 0 ∧
      (handleRestart rand u).game.speed = INITIAL_SPEED ∧
      (handleRestart rand u).game.food = getRandomFood rand createInitialSnake ∧
      (handleRestart rand u).game.food ∉ (handleRestart rand u).game.snake ∧
      (handleRestart rand u).game.isGameOver = false ∧
      (handleRestart rand u).game.isRunning = true := by
  refine ⟨rfl, rfl, rfl, rfl, rfl, rfl, rfl, ?_, rfl, rfl⟩
  have hne : freeSpaces createInitialSnake ≠ [] :=
    List.ne_nil_of_mem ((mem_freeSpaces (c := ⟨0, 0⟩)).mpr ⟨by decide, by decide⟩)
  have hmem := getRandomFood_mem rand hne
  exact (mem_freeSpaces.mp hmem).2

/-- A well-formed base-10 non-negative integer numeral: non-empty and made
solely of decimal digits. -/
def wellFormedNonNegIntString (s : String) : Prop :=
  s ≠ "" ∧ ∀ c ∈ s.data, c.isDigit

/-- Claim C6 counterexample: the persisted string "7abc" is not a well-formed
base-10 non-negative integer numeral, yet the high score loaded from it is 7
rather than 0 — `Number.parseInt` accepts any string with a parseable integer
prefix, so such malformed values are not treated as absent. -/
theorem malformed_highscore_counterexample :
    ¬ wellFormedNonNegIntString "7abc" ∧
      loadHighScore (some "7abc") = 7 ∧ (7 : Int) ≠ 0 := by
  refine ⟨fun h => absurd (h.2 'a' (by decide)) (by decide), by decide, by decide⟩

/-- Claim C6 amended: a missing value, the empty string, and a string with no
parseable integer prefix (no digit after optional whitespace and sign) load a
high score of 0; any other string loads the integer denoted by its longest
leading numeral — possibly non-zero or negative despite the string as a whole
being malformed. -/
theorem highscore_load_semantics (s : String) :
    loadHighScore none = 0 ∧
      loadHighScore (some "") = 0 ∧
      (jsParseInt s = none → loadHighScore (some s) = 0) ∧
      (∀ n : Int, s ≠ "" → jsParseInt s = some n → loadHighScore (some s) = n) := by
  refine ⟨rfl, rfl, fun h => ?_, fun n hne hp => ?_⟩
  · by_cases he : s = ""
    · simp [loadHighScore, he]
    · simp [loadHighScore, he, h]
  · simp [loadHighScore, hne, hp]

theorem highscore_load_semantics_witness :
    loadHighScore (some "7abc") = 7 :=
  (highscore_load_semantics "7abc").2.2.2 7 (by decide) (by decide)

theorem digit_not_ws {c : Char} (h : c.isDigit = true) :
    (c == ' ' || c == '\t' || c == '\n' || c == '\r') = false := by
  simp only [Bool.or_eq_false_iff, beq_eq_false_iff_ne]
  refine ⟨⟨⟨?_, ?_⟩, ?_⟩, ?_⟩ <;> rintro rfl <;> exact absurd h (by decide)

theorem digit_ne_dash {c : Char} (h : c.isDigit = true) : (c == '-') = false := by
  simp only [beq_eq_false_iff_ne]
  rintro rfl
  exact absurd h (by decide)

theorem digit_ne_plus {c : Char} (h : c.isDigit = true) : (c == '+') = false := by
  simp only [beq_eq_false_iff_ne]
  rintro rfl
  exact absurd h (by decide)

/-- On an all-digit non-empty string, the embedded `parseInt` returns the
(non-negative) value of the digits. -/
theorem jsParseInt_digits (s : String) (hne : s.data ≠ [])
    (hdig : ∀ c ∈ s.data, c.isDigit) :
    jsParseInt s = some ((digitsVal s.data : Nat) : Int) := by
  obtain ⟨c, t, hct⟩ : ∃ c t, s.data = c :: t := by
    cases hd : s.data with
    | nil => exact absurd hd hne
    | cons c t => exact ⟨c, t, rfl⟩
  have hc : c.isDigit := hdig c (by rw [hct]; exact List.mem_cons_self c t)
  unfold jsParseInt
  rw [hct, List.dropWhile_cons, digit_not_ws hc]
  simp only [Bool.false_eq_true, if_false, List.head?_cons]
  have hdash : ((some c == some '-') : Bool) = false := by
    simp [digit_ne_dash hc]
  have hplus : ((some c == some '+') : Bool) = false := by
    simp [digit_ne_plus hc]
  rw [hdash, hplus]
  simp only [Bool.false_or, Bool.false_eq_true, if_false]
  have htake : (c :: t).takeWhile Char.isDigit = c :: t :=
    List.takeWhile_eq_self_iff.mpr (by rw [← hct]; exact hdig)
  rw [htake]
  simp [← hct, hne]

/-- All-digit persisted numbers load as non-negative high scores. -/
theorem loadHighScore_digits_nonneg (s : String)
    (hdig : ∀ c ∈ s.data, c.isDigit) : 0 ≤ loadHighScore (some s) := by
  by_cases he : s = ""
  · simp [loadHighScore, he]
  · have hne : s.data ≠ [] := fun h =>
      he (by cases s; simp at h; simp [h])
    rw [show loadHighScore (some s) = ((digitsVal s.data : Nat) : Int) by
      simp [loadHighScore, he, jsParseInt_digits s hne hdig]]
    exact Int.natCast_nonneg _

/-- A tick never decreases the high score. -/
theorem le_step_highScore (rand : Nat) (d : Cell) (g : GameState) :
    g.highScore ≤ (step rand d g).highScore := by
  obtain ⟨snake, dir, food, score, hs, speed, run, over⟩ := g
  cases snake with
  | nil => simp [step]
  | cons head rest =>
    simp only [step]
    split
    · exact le_refl _
    · split
      · simp only
        split <;> omega
      · exact le_refl _

/-- A tick leaves the direction state it was given. -/
theorem step_direction (rand : Nat) (d : Cell) (g : GameState) :
    (step rand d g).direction = g.direction := by
  obtain ⟨snake, dir, food, score, hs, speed, run, over⟩ := g
  cases snake with
  | nil => simp [step]
  | cons head rest =>
    simp only [step]
    split
    · rfl
    · split <;> rfl

/-- No event decreases the high score, and restart preserves it exactly. -/
theorem applyEvent_highScore (e : Event) (u : UIState) :
    u.game.highScore ≤ (applyEvent e u).game.highScore := by
  cases e with
  | timerFire rand =>
    simp only [applyEvent, tickUI]
    split
    · cases u.pending with
      | some d => exact le_step_highScore rand d _
      | none => exact le_step_highScore rand _ _
    · exact le_refl _
  | key k rand =>
    simp only [applyEvent, handleKeyDown]
    repeat' split
    all_goals simp [resetGame]
  | buttonDir b =>
    simp only [applyEvent, handleButtonDir]
    split
    · split <;> exact le_refl _
    · exact le_refl _
  | startBtn rand =>
    simp only [applyEvent, handleStart]
    split <;> exact le_refl _
  | pauseBtn => exact le_refl _
  | resumeBtn =>
    simp only [applyEvent, handleResume]
    split <;> exact le_refl _
  | restartBtn rand => exact le_refl _

/-- Claim C7 counterexample: with the corrupt persisted string "-5", the
initialization read loads a negative high score — `Number.parseInt("-5", 10)`
is `-5`, not `NaN` — so the session's high score is neither non-negative at
all times nor non-decreasing across the initialization read (which lowers it
from the pre-read default 0 to -5). -/
theorem highscore_negative_counterexample :
    (initUI (some "-5") 0).game.highScore = -5 ∧
      (initUI (some "-5") 0).game.highScore < 0 := by
  constructor <;> decide

/-- Claim C7 amended: after initialization, the high score never decreases —
every event (tick, key, on-screen button, start, pause, resume, restart)
leaves it unchanged or raises it, and restart preserves it exactly.  When the
persisted value is absent or a canonical all-digit numeral (the only shape
the program itself writes), the loaded initial high score is non-negative,
and hence remains so; only a corrupt persisted string carrying a negative
numeral prefix breaks non-negativity, at the initialization read alone. -/
theorem highscore_monotone (u : UIState) (e : Event) (r : Nat) (s : String)
    (hdig : ∀ c ∈ s.data, c.isDigit) :
    u.game.highScore ≤ (applyEvent e u).game.highScore ∧
      (applyEvent (.restartBtn r) u).game.highScore = u.game.highScore ∧
      0 ≤ loadHighScore (some s) ∧
      loadHighScore none = 0 :=
  ⟨applyEvent_highScore e u, rfl, loadHighScore_digits_nonneg s hdig, rfl⟩

theorem highscore_monotone_witness :
    (initUI none 0).game.highScore ≤
        (applyEvent (.timerFire 0) (initUI none 0)).game.highScore ∧
      0 ≤ loadHighScore (some "420") :=
  ⟨(highscore_monotone (initUI none 0) (.timerFire 0) 0 "420" (by decide)).1,
   (highscore_monotone (initUI none 0) (.timerFire 0) 0 "420" (by decide)).2.2.1⟩

/-- The four cardinal unit vectors, the only values `KEY_TO_DIRECTION` and the
on-screen buttons ever produce. -/
def unitDirs : List Cell := [⟨0, -1⟩, ⟨0, 1⟩, ⟨-1, 0⟩, ⟨1, 0⟩]

/-- The reversal test of the input handlers: the proposal `d` is the exact
opposite of the direction `current` in effect. -/
def oppositeOf (current d : Cell) : Prop :=
  current.x + d.x = 0 ∧ current.y + d.y = 0

instance (current d : Cell) : Decidable (oppositeOf current d) :=
  inferInstanceAs (Decidable (And _ _))

theorem KEY_TO_DIRECTION_mem {k : String} {d : Cell}
    (h : KEY_TO_DIRECTION k = some d) : d ∈ unitDirs := by
  unfold KEY_TO_DIRECTION at h
  repeat' split at h
  all_goals simp_all [unitDirs]

theorem btnCell_mem (b : BtnDir) : btnCell b ∈ unitDirs := by
  cases b <;> simp [btnCell, unitDirs]

/-- Direction-buffer invariant: the direction in effect is a unit vector and
any pending direction is a unit vector that is not its exact opposite. -/
def DirInv (u : UIState) : Prop :=
  u.game.direction ∈ unitDirs ∧
    ∀ d, u.pending = some d → d ∈ unitDirs ∧ ¬ oppositeOf u.game.direction d

theorem DirInv_initUI (stored : Option String) (rand : Nat) :
    DirInv (initUI stored rand) := by
  constructor
  · simp [initUI, unitDirs]
  · intro d hd
    simp [initUI] at hd

theorem DirInv_resetGame (rand : Nat) (autoStart : Bool) (u : UIState) :
    DirInv (resetGame rand autoStart u) := by
  constructor
  · simp [resetGame, unitDirs]
  · intro d hd
    simp [resetGame] at hd

theorem DirInv_applyEvent (e : Event) (u : UIState) (h : DirInv u) :
    DirInv (applyEvent e u) := by
  obtain ⟨hdir, hpend⟩ := h
  cases e with
  | timerFire rand =>
    simp only [applyEvent, tickUI]
    split
    · cases hp : u.pending with
      | none =>
        refine ⟨?_, ?_⟩
        · rw [step_direction]; exact hdir
        · intro d hd; simp at hd
      | some d0 =>
        have h0 := hpend d0 hp
        refine ⟨?_, ?_⟩
        · rw [step_direction]; exact h0.1
        · intro d hd; simp at hd
    · exact ⟨hdir, hpend⟩
  | key k rand =>
    simp only [applyEvent, handleKeyDown]
    generalize (if k.length = 1 then lowerString k else k) = key
    split
    · split
      · exact DirInv_resetGame rand true u
      · exact ⟨hdir, hpend⟩
    · split
      · exact ⟨hdir, hpend⟩
      · rename_i desired heq
        split
        · exact ⟨hdir, hpend⟩
        · rename_i hnotopp
          split
          all_goals
            refine ⟨hdir, ?_⟩
            intro d hd
            simp only [Option.some.injEq] at hd
            subst hd
            exact ⟨KEY_TO_DIRECTION_mem heq, fun hc => hnotopp ⟨hc.1, hc.2⟩⟩
  | buttonDir b =>
    simp only [applyEvent, handleButtonDir]
    split
    · rename_i hcond
      split
      all_goals
        refine ⟨hdir, ?_⟩
        intro d hd
        simp only [Option.some.injEq] at hd
        subst hd
        refine ⟨btnCell_mem b, fun hc => ?_⟩
        rcases hcond with hne | hne
        · exact hne hc.1
        · exact hne hc.2
    · exact ⟨hdir, hpend⟩
  | startBtn rand =>
    simp only [applyEvent, handleStart]
    split
    · exact DirInv_resetGame rand true u
    · exact ⟨hdir, hpend⟩
  | pauseBtn => exact ⟨hdir, hpend⟩
  | resumeBtn =>
    simp only [applyEvent, handleResume]
    split <;> exact ⟨hdir, hpend⟩
  | restartBtn rand => exact DirInv_resetGame rand true u

theorem DirInv_reachable {u : UIState} (h : Reachable u) : DirInv u := by
  induction h with
  | init stored rand => exact DirInv_initUI stored rand
  | next e h ih => exact DirInv_applyEvent e _ ih

/-- Claim C4: a key proposing the exact opposite of the direction in effect is
silently discarded — the whole state, including any pending direction, is left
untouched — and consequently in every reachable state the direction a tick
would apply (the pending one if buffered, else the current one) is never the
exact opposite of the direction in effect. -/
theorem no_instant_reversal (u : UIState) (hu : Reachable u) (k : String)
    (rand : Nat) (d : Cell)
    (hk : KEY_TO_DIRECTION (if k.length = 1 then lowerString k else k) = some d)
    (hopp : u.game.direction.x + d.x = 0 ∧ u.game.direction.y + d.y = 0) :
    handleKeyDown k rand u = u ∧
      ¬(u.game.direction.x + (u.pending.getD u.game.direction).x = 0 ∧
        u.game.direction.y + (u.pending.getD u.game.direction).y = 0) := by
  constructor
  · have hkey_ne : (if k.length = 1 then lowerString k else k) ≠ " " := by
      intro h
      rw [h] at hk
      rw [show KEY_TO_DIRECTION " " = none from rfl] at hk
      exact Option.noConfusion hk
    simp only [handleKeyDown]
    rw [if_neg hkey_ne, hk]
    dsimp only
    rw [if_pos hopp]
  · have hinv := DirInv_reachable hu
    cases hp : u.pending with
    | none =>
      have hdmem := hinv.1
      simp only [hp, Option.getD_none]
      simp only [unitDirs, List.mem_cons, List.mem_singleton,
        List.not_mem_nil, or_false] at hdmem
      rcases hdmem with h | h | h | h <;> rw [h] <;> decide
    | some d0 =>
      have h0 := hinv.2 d0 hp
      simp only [hp, Option.getD_some]
      exact fun hc => h0.2 ⟨hc.1, hc.2⟩

theorem no_instant_reversal_witness :
    handleKeyDown "a" 0 (initUI none 0) = initUI none 0 ∧
      ¬((initUI none 0).game.direction.x +
          (((initUI none 0).pending.getD (initUI none 0).game.direction)).x = 0 ∧
        (initUI none 0).game.direction.y +
          (((initUI none 0).pending.getD (initUI none 0).game.direction)).y = 0) :=
  no_instant_reversal (initUI none 0) (Reachable.init none 0) "a" 0 ⟨-1, 0⟩
    (by decide) (by decide)

/-- Claim C9: while the run flag is off (paused or idle), any number of timer
firings leaves the whole state untouched, and resuming merely sets the run
flag — the simulation continues from exactly the pre-pause state at the
current speed, with no catch-up ticks. -/
theorem pause_freezes (u : UIState) (h : u.game.isRunning = false) :
    (∀ rands : List Nat, applyTicks rands u = u) ∧
      (u.game.isGameOver = false →
        (handleResume u).game.snake = u.game.snake ∧
        (handleResume u).game.food = u.game.food ∧
        (handleResume u).game.score = u.game.score ∧
        (handleResume u).game.speed = u.game.speed ∧
        (handleResume u).game.direction = u.game.direction ∧
        (handleResume u).game.highScore = u.game.highScore ∧
        (handleResume u).pending = u.pending ∧
        (handleResume u).game.isRunning = true) := by
  constructor
  · intro rands
    induction rands with
    | nil => rfl
    | cons r t ih =>
      have ht : tickUI r u = u := by simp [tickUI, h]
      show applyTicks t (tickUI r u) = u
      rw [ht]
      exact ih
  · intro hgo
    simp [handleResume, hgo]

theorem pause_freezes_witness :
    applyTicks [1, 2, 3] (initUI none 0) = initUI none 0 ∧
      (handleResume (initUI none 0)).game.isRunning = true := by
  have h := pause_freezes (initUI none 0) rfl
  exact ⟨h.1 [1, 2, 3], (h.2 rfl).2.2.2.2.2.2.2⟩

/-- A game-over state reached after a collision. -/
def overState : UIState :=
  { game :=
      { snake := [⟨5, 5⟩]
        direction := ⟨1, 0⟩
        food := ⟨6, 6⟩
        score := 40
        highScore := 40
        speed := 140
        isRunning := false
        isGameOver := true }
    pending := none }

/-- Claim C10: while the game-over flag is set, a timer event leaves the
state identically unchanged (no tick fires), every event either leaves snake,
food, score and speed untouched with the flag still set or is an explicit
restart, and the on-screen directional buttons — which, unlike the keyboard
handler, do not guard on game over — set the running flag while game over
persists. -/
theorem gameOver_frozen (u : UIState) (hgo : u.game.isGameOver = true) :
    (∀ rand, applyEvent (.timerFire rand) u = u) ∧
      (∀ e : Event,
        ((applyEvent e u).game.snake = u.game.snake ∧
            (applyEvent e u).game.food = u.game.food ∧
            (applyEvent e u).game.score = u.game.score ∧
            (applyEvent e u).game.speed = u.game.speed ∧
            (applyEvent e u).game.isGameOver = true) ∨
          (∃ r, applyEvent e u = resetGame r true u)) ∧
      (∀ b : BtnDir, ¬ oppositeOf u.game.direction (btnCell b) →
        (applyEvent (.buttonDir b) u).game.isRunning = true ∧
        (applyEvent (.buttonDir b) u).game.isGameOver = true) := by
  have htimer : ∀ rand, applyEvent (.timerFire rand) u = u := by
    intro rand
    simp [applyEvent, tickUI, hgo]
  refine ⟨htimer, ?_, ?_⟩
  · intro e
    cases e with
    | timerFire rand =>
      rw [htimer rand]
      exact Or.inl ⟨rfl, rfl, rfl, rfl, hgo⟩
    | key k rand =>
      simp only [applyEvent, handleKeyDown]
      generalize (if k.length = 1 then lowerString k else k) = key
      split
      · exact Or.inr ⟨rand, rfl⟩
      · split
        · exact Or.inl ⟨rfl, rfl, rfl, rfl, hgo⟩
        · split
          · exact Or.inl ⟨rfl, rfl, rfl, rfl, hgo⟩
          · split
            · rename_i hrun
              rw [hgo] at hrun
              simp at hrun
            · exact Or.inl ⟨rfl, rfl, rfl, rfl, hgo⟩
    | buttonDir b =>
      simp only [applyEvent, handleButtonDir]
      split
      · split
        · exact Or.inl ⟨rfl, rfl, rfl, rfl, hgo⟩
        · exact Or.inl ⟨rfl, rfl, rfl, rfl, hgo⟩
      · exact Or.inl ⟨rfl, rfl, rfl, rfl, hgo⟩
    | startBtn rand =>
      simp only [applyEvent, handleStart]
      rw [if_pos hgo]
      exact Or.inr ⟨rand, rfl⟩
    | pauseBtn => exact Or.inl ⟨rfl, rfl, rfl, rfl, hgo⟩
    | resumeBtn =>
      simp only [applyEvent, handleResume]
      rw [if_neg (by simp [hgo])]
      exact Or.inl ⟨rfl, rfl, rfl, rfl, hgo⟩
    | restartBtn rand => exact Or.inr ⟨rand, rfl⟩
  · intro b hnopp
    simp only [applyEvent, handleButtonDir]
    rw [if_pos (not_and_or.mp hnopp)]
    split
    · exact ⟨rfl, hgo⟩
    · rename_i hrun
      refine ⟨?_, hgo⟩
      simpa using hrun

theorem gameOver_frozen_witness :
    applyEvent (.timerFire 5) overState = overState ∧
      (applyEvent (.buttonDir .up) overState).game.isRunning = true ∧
      (applyEvent (.buttonDir .up) overState).game.isGameOver = true := by
  have h := gameOver_frozen overState rfl
  exact ⟨h.1 5, (h.2.2 .up (by decide)).1, (h.2.2 .up (by decide)).2⟩
